import Mathlib

/-!
# Verification of the pve-lxc-syscalld request pipeline

A shallow embedding of the seccomp-notify proxy daemon, translated from the
Rust sources (`src/lxcseccomp.rs`, `src/sys_mknod.rs`, `src/sys_quotactl.rs`,
`src/process/id_map.rs`, `src/fork.rs`, `src/client.rs`, `src/seccomp.rs`,
`src/io/cmsg.rs`), together with proofs about the protocol validation, the
mknod device accept list, the quotactl id translation, the fork result
record, and the per-connection reply discipline.

Machine integers are modelled as `Nat` (unsigned types) and `Int` (signed
types), with explicit `% 2^w` or range conditions at the points where the
Rust code converts or wraps.
-/

deriving instance DecidableEq for Except

namespace Syscalld

/-! ## Errno and mode constants (Linux x86_64 values used by the crate) -/

def EPERM : Nat := 1
def EFAULT : Nat := 14
def EINVAL : Nat := 22
def ERANGE : Nat := 34
def ENOSYS : Nat := 38
def EOPNOTSUPP : Nat := 95

/-- `libc::S_IFMT`, the file-type mask of a `mode_t` (octal 0170000). -/
def S_IFMT : Nat := 0xF000

/-- `libc::S_IFREG` (octal 0100000). -/
def S_IFREG : Nat := 0x8000

/-- `libc::S_IFCHR` (octal 0020000). -/
def S_IFCHR : Nat := 0x2000

/-! ## Syscall result status

`SyscallStatus` from `src/syscall.rs`: `Ok(i64)` carries the syscall return
value, `Err(i32)` carries a positive errno. -/

inductive SyscallStatus where
  | ok (val : Int)
  | err (errno : Int)
deriving DecidableEq, Repr

/-- The seccomp notification response, `SeccompNotifResp` from
`src/seccomp.rs` (`id : u64`, `val : i64`, `error : i32`, `flags : u32`). -/
structure SeccompNotifResp where
  id : Nat
  val : Int
  error : Int
  flags : Nat
deriving DecidableEq, Repr

/-- How `Client::__handle_syscall` (src/client.rs lines 72-82) writes a
handler result into the response buffer: `Ok(val)` sets `val`/`error = 0`,
`Err(err)` sets `val = -1` and `error = -err` (the negated errno). -/
def write_response (resp : SeccompNotifResp) (result : SyscallStatus) : SeccompNotifResp :=
  match result with
  | .ok v => { resp with val := v, error := 0 }
  | .err e => { resp with val := -1, error := -e }

/-! ## Argument accessors of `ProxyMessageBuffer` (src/lxcseccomp.rs)

A request's syscall arguments are the six `u64` entries of
`SeccompData.args`; we model the array as a `List Nat` (entries `< 2^64`).
Errors are errno numbers. -/

/-- `ProxyMessageBuffer::arg` (src/lxcseccomp.rs lines 326-333):
bounds-checked indexing into `notif.data.args`, `ERANGE` when out of
bounds. -/
def arg (args : List Nat) (i : Nat) : Except Nat Nat :=
  match args.get? i with
  | some v => .ok v
  | none => .error ERANGE

/-- `ProxyMessageBuffer::arg_uint` (lines 412-414): `c_uint::try_from(u64)`,
`EINVAL` when the value does not fit in a `u32`. -/
def arg_uint (args : List Nat) (i : Nat) : Except Nat Nat :=
  (arg args i).bind fun v => if v < 2 ^ 32 then .ok v else .error EINVAL

/-- Rust `u as c_int`: reinterpret the low 32 bits as two's-complement. -/
def u32_as_i32 (v : Nat) : Int :=
  if v % 2 ^ 32 < 2 ^ 31 then (v % 2 ^ 32 : Nat) else (v % 2 ^ 32 : Nat) - 2 ^ 32

/-- `ProxyMessageBuffer::arg_int` (lines 418-420): `arg_uint` followed by
`u as c_int`.  Note: the range check is against `c_uint`, the cast to
`c_int` wraps. -/
def arg_int (args : List Nat) (i : Nat) : Except Nat Int :=
  (arg_uint args i).map u32_as_i32

/-- `ProxyMessageBuffer::arg_mode_t` (lines 389-391):
`mode_t::try_from(u64)` with `mode_t = u32` on Linux, `EINVAL` on
overflow. -/
def arg_mode_t (args : List Nat) (i : Nat) : Except Nat Nat :=
  (arg args i).bind fun v => if v < 2 ^ 32 then .ok v else .error EINVAL

/-- `ProxyMessageBuffer::arg_dev_t` (lines 395-397): `dev_t = u64`, the raw
argument is returned unchecked. -/
def arg_dev_t (args : List Nat) (i : Nat) : Except Nat Nat :=
  arg args i

/-! ## mknod / mknodat (src/sys_mknod.rs) -/

/-- `nix::sys::stat::major` for Linux:
`((dev >> 32) & 0xffff_f000) | ((dev >> 8) & 0xfff)`. -/
def major (dev : Nat) : Nat :=
  ((dev >>> 32) &&& 0xfffff000) ||| ((dev >>> 8) &&& 0xfff)

/-- `nix::sys::stat::minor` for Linux:
`((dev >> 12) & 0xffff_ff00) | (dev & 0xff)`. -/
def minor (dev : Nat) : Nat :=
  ((dev >>> 12) &&& 0xffffff00) ||| (dev &&& 0xff)

/-- `check_mknod_dev` (src/sys_mknod.rs lines 41-60): the accept list of
`(file type, major, minor)` combinations, written as the source's `match`
on `(mode & S_IFMT, major(dev), minor(dev))`. -/
def check_mknod_dev (mode dev : Nat) : Bool :=
  let sflag := mode &&& S_IFMT
  let ma := major dev
  let mi := minor dev
  (sflag == S_IFREG && ma == 0 && mi == 0) ||
  (sflag == S_IFCHR && ma == 0 && mi == 0) ||
  (sflag == S_IFCHR && ma == 5 && mi == 0) ||
  (sflag == S_IFCHR && ma == 5 && mi == 1) ||
  (sflag == S_IFCHR && ma == 5 && mi == 2) ||
  (sflag == S_IFCHR && ma == 1 && mi == 3) ||
  (sflag == S_IFCHR && ma == 1 && mi == 5) ||
  (sflag == S_IFCHR && ma == 1 && mi == 7) ||
  (sflag == S_IFCHR && ma == 1 && mi == 8) ||
  (sflag == S_IFCHR && ma == 1 && mi == 9)

/-- The accept list of claim C1, as explicit triples
`(S_IFMT part, major, minor)`. -/
def allowedDevs : List (Nat × Nat × Nat) :=
  [(S_IFREG, 0, 0), (S_IFCHR, 0, 0), (S_IFCHR, 5, 0), (S_IFCHR, 5, 1),
   (S_IFCHR, 5, 2), (S_IFCHR, 1, 3), (S_IFCHR, 1, 5), (S_IFCHR, 1, 7),
   (S_IFCHR, 1, 8), (S_IFCHR, 1, 9)]

/-- Outcome of the mknod/mknodat handlers up to the point where they either
reply synchronously or enter `do_mknodat` (which captures the caller's
capabilities and invokes the fork helper `forking_syscall`).  The pathname
read, dirfd resolution and the forked `libc::mknodat` itself are external
I/O and are abstracted behind the `fork` constructor. -/
inductive MknodResult where
  | reply (errno : Nat)
  | fork (mode dev : Nat)
  | argError (errno : Nat)
deriving DecidableEq, Repr

/-- `mknod` (src/sys_mknod.rs lines 15-26): `mode := arg_mode_t(1)`,
`dev := arg_dev_t(2)`; a failed device check replies `EPERM` without
forking, otherwise the handler proceeds into `do_mknodat`. -/
def sys_mknod (args : List Nat) : MknodResult :=
  match arg_mode_t args 1 with
  | .error e => .argError e
  | .ok mode =>
    match arg_dev_t args 2 with
    | .error e => .argError e
    | .ok dev =>
      if check_mknod_dev mode dev then .fork mode dev else .reply EPERM

/-- `mknodat` (src/sys_mknod.rs lines 28-39): `mode := arg_mode_t(2)`,
`dev := arg_dev_t(3)`; same gate as `mknod`. -/
def sys_mknodat (args : List Nat) : MknodResult :=
  match arg_mode_t args 2 with
  | .error e => .argError e
  | .ok mode =>
    match arg_dev_t args 3 with
    | .error e => .argError e
    | .ok dev =>
      if check_mknod_dev mode dev then .fork mode dev else .reply EPERM

/-! ## IdMap (src/process/id_map.rs)

One line of `/proc/<pid>/uid_map` / `gid_map`: a triple of `u64` values.
Values are id-map entries supplied by the kernel, whose sums never approach
`2^64`, so plain `Nat` arithmetic matches the `u64` arithmetic of the
source. -/

structure IdMapEntry where
  ns : Nat
  host : Nat
  range : Nat
deriving DecidableEq, Repr

/-- An `IdMap` is the ordered list of its entries. -/
abbrev IdMap := List IdMapEntry

/-- `IdMap::map_into` (src/process/id_map.rs lines 16-24): first entry with
`entry.host <= id && entry.host + entry.range > id` yields
`entry.ns + id - entry.host`; this maps a host id to a namespace id. -/
def map_into : IdMap → Nat → Option Nat
  | [], _ => none
  | e :: rest, id =>
    if e.host ≤ id ∧ id < e.host + e.range then some (e.ns + id - e.host)
    else map_into rest id

/-- `IdMap::map_from` (src/process/id_map.rs lines 26-34): first entry with
`entry.ns <= id && entry.ns + entry.range > id` yields
`entry.host + id - entry.ns`; this maps a namespace id to a host id. -/
def map_from : IdMap → Nat → Option Nat
  | [], _ => none
  | e :: rest, id =>
    if e.ns ≤ id ∧ id < e.ns + e.range then some (e.host + id - e.ns)
    else map_from rest id

/-- Entries whose host ranges do not overlap. -/
def hostDisjoint (a b : IdMapEntry) : Prop :=
  a.host + a.range ≤ b.host ∨ b.host + b.range ≤ a.host

/-- Entries whose namespace ranges do not overlap. -/
def nsDisjoint (a b : IdMapEntry) : Prop :=
  a.ns + a.range ≤ b.ns ∨ b.ns + b.range ≤ a.ns

/-- A well-formed id map: ranges are pairwise disjoint on both sides, as the
kernel guarantees for `/proc/<pid>/uid_map` and `gid_map`. -/
def IdMapWF (m : IdMap) : Prop :=
  List.Pairwise hostDisjoint m ∧ List.Pairwise nsDisjoint m

/-! ## quotactl (src/sys_quotactl.rs) -/

def USRQUOTA : Int := 0
def GRPQUOTA : Int := 1

/-- Rust `id as u64` for `id : c_int`: sign-extension of the 32-bit value
into 64 bits, i.e. the representative of `id` modulo `2^64`. -/
def i32_as_u64 (id : Int) : Nat :=
  (id % (2 ^ 64 : Int)).toNat

/-- `uid_gid_arg` (src/sys_quotactl.rs lines 211-230) without the message
plumbing: the caller-supplied `c_int` id of a `USRQUOTA`/`GRPQUOTA` request
is pushed through `map_from` of the pidfd's uid or gid map (namespace to
host), then converted back to `c_int` via `c_int::try_from`; either step
failing is `ERANGE`.  Any other kind passes the id through with no map. -/
def uid_gid_arg (uid_map gid_map : IdMap) (kind : Int) (id : Int) :
    Except Nat (Int × Option IdMap) :=
  let select : Option IdMap :=
    if kind = USRQUOTA then some uid_map
    else if kind = GRPQUOTA then some gid_map
    else none
  match select with
  | none => .ok (id, none)
  | some m =>
    match map_from m (i32_as_u64 id) with
    | none => .error ERANGE
    | some hid =>
      if hid ≤ 2 ^ 31 - 1 then .ok ((hid : Int), some m) else .error ERANGE

/-- The `dqb_id` rewrite of `q_getnextquota` (src/sys_quotactl.rs lines
311-315): when an id map was selected, the `dqb_id : u32` the kernel
returned is pushed through `map_into` (host to namespace), `ERANGE` when
unmapped, and truncated back to `u32`; the result is what
`mem_write_struct` writes into the caller's memory. -/
def q_getnextquota_out_id (idmap : Option IdMap) (dqb_id : Nat) : Except Nat Nat :=
  match idmap with
  | none => .ok dqb_id
  | some m =>
    match map_into m dqb_id with
    | none => .error ERANGE
    | some v => .ok (v % 2 ^ 32)

/-! ## Seccomp structure sizes (src/seccomp.rs)

`SeccompNotifSizes` holds the kernel-reported sizes of the three seccomp
structures.  `get_checked` (used for the startup singleton `SECCOMP_SIZES`
in src/lxcseccomp.rs) fails unless they equal this crate's compiled
`size_of` values, which for the `repr(C)` layouts of src/seccomp.rs are
`SeccompNotif = 80`, `SeccompNotifResp = 24`, `SeccompData = 64` bytes. -/

structure SeccompNotifSizes where
  notif : Nat
  notif_resp : Nat
  data : Nat
deriving DecidableEq, Repr

/-- The compiled struct sizes (x86_64): `SeccompData` is
`4 + 4 + 8 + 6*8 = 64`, `SeccompNotif` is `8 + 4 + 4 + 64 = 80`,
`SeccompNotifResp` is `8 + 8 + 4 + 4 = 24`. -/
def compiledSizes : SeccompNotifSizes := ⟨80, 24, 64⟩

/-- `mem::size_of::<SeccompNotifyProxyMsg>()` for the `repr(C)` envelope of
src/lxcseccomp.rs: `u64` at 0, two `i32` at 8 and 12, three `u16` at 16,
padding to 24, `u64` cookie_len at 24; total 32 bytes with alignment 8. -/
def proxyMsgSize : Nat := 32

/-- The envelope `SeccompNotifyProxyMsg` (src/lxcseccomp.rs lines 30-55).
`cookie_len` is a `u64`. -/
structure SeccompNotifyProxyMsg where
  reserved0 : Nat
  monitor_pid : Int
  init_pid : Int
  sizes : SeccompNotifSizes
  cookie_len : Nat
deriving DecidableEq, Repr

/-- `SeccompData` (src/seccomp.rs): `nr : i32`, `arch : u32`,
`instruction_pointer : u64`, `args : [u64; 6]`. -/
structure SeccompData where
  nr : Int
  arch : Nat
  instruction_pointer : Nat
  args : List Nat
deriving DecidableEq, Repr

/-- `SeccompNotif` (src/seccomp.rs). -/
structure SeccompNotif where
  id : Nat
  pid : Nat
  flags : Nat
  data : SeccompData
deriving DecidableEq, Repr

/-- The parts of `ProxyMessageBuffer` (src/lxcseccomp.rs lines 58-69) that
`set_len` reads and writes: the received envelope, notification and
response storage, the cookie buffer's current length and fixed capacity,
and the cached startup sizes.  `seccomp_packet_size` is derived from the
cached sizes exactly as in `ProxyMessageBuffer::new`. -/
structure ProxyMessageBuffer where
  proxy_msg : SeccompNotifyProxyMsg
  seccomp_notif : SeccompNotif
  seccomp_resp : SeccompNotifResp
  cookie_len_set : Nat
  cookie_capacity : Nat
  sizes : SeccompNotifSizes
deriving DecidableEq, Repr

/-- `seccomp_packet_size` as computed in `ProxyMessageBuffer::new`
(src/lxcseccomp.rs lines 96-98). -/
def seccomp_packet_size (b : ProxyMessageBuffer) : Nat :=
  proxyMsgSize + b.sizes.notif + b.sizes.notif_resp

/-- `ProxyMessageBuffer::check_sizes` (src/lxcseccomp.rs lines 277-282). -/
def check_sizes (b : ProxyMessageBuffer) : Bool :=
  b.proxy_msg.sizes.notif == b.sizes.notif &&
  b.proxy_msg.sizes.notif_resp == b.sizes.notif_resp &&
  b.proxy_msg.sizes.data == b.sizes.data

/-- The distinct `bail!` sites of `ProxyMessageBuffer::set_len`; each is a
connection-fatal error (the caller `Client::wrap_error` shuts the socket
down). -/
inductive SetLenError where
  | tooShort
  | reservedNonzero
  | sizesMismatch
  | tooLong
  | cookieLenOverflow
  | cookieLenMismatch
deriving DecidableEq, Repr

/-- `USIZE_MAX` of the 64-bit target; `usize::try_from(u64)` fails above
it (it never does on this target, but the check is in the code). -/
def USIZE_MAX : Nat := 2 ^ 64 - 1

/-- `ProxyMessageBuffer::prepare_response` (src/lxcseccomp.rs lines
222-230): `resp.id = notif.id`, `val = -1`, `error = -ENOSYS`,
`flags = 0`. -/
def prepare_response (b : ProxyMessageBuffer) : ProxyMessageBuffer :=
  { b with seccomp_resp :=
    { id := b.seccomp_notif.id, val := -1, error := -(ENOSYS : Nat), flags := 0 } }

/-- `ProxyMessageBuffer::set_len` (src/lxcseccomp.rs lines 234-275),
called by `recv` with the received byte count; validates the message and,
on success, sets the cookie buffer length and prepares the response in
place. -/
def set_len (b : ProxyMessageBuffer) (len : Nat) : Except SetLenError ProxyMessageBuffer :=
  if len < seccomp_packet_size b then .error .tooShort
  else if b.proxy_msg.reserved0 ≠ 0 then .error .reservedNonzero
  else if ¬ check_sizes b then .error .sizesMismatch
  else if len - seccomp_packet_size b > b.cookie_capacity then .error .tooLong
  else if b.proxy_msg.cookie_len > USIZE_MAX then .error .cookieLenOverflow
  else if len ≠ seccomp_packet_size b + b.proxy_msg.cookie_len then .error .cookieLenMismatch
  else .ok (prepare_response { b with cookie_len_set := b.proxy_msg.cookie_len })

/-- The total length of the 3-entry gather list
`[proxy_msg, seccomp_notif, seccomp_resp]` of
`ProxyMessageBuffer::respond` (src/lxcseccomp.rs lines 209-220): the sum of
the compiled struct sizes, with the cookie region omitted. -/
def respond_len : Nat := proxyMsgSize + 80 + 24

/-- `ProxyMessageBuffer::respond`, given the byte count the socket reports
for `sendmsg_vectored`: any count other than the full gather length is the
explicit `io_bail!("truncated message?")` error. -/
def respond (sent : Nat) : Except String Unit :=
  if sent ≠ respond_len then .error "truncated message?" else .ok ()

/-! ## Ancillary control-message extraction (src/lxcseccomp.rs recv, lines
150-186, over src/io/cmsg.rs)

A control message is its level, its type and its data bytes; `recv` looks
only at the first one, then splits its data into complete 4-byte chunks,
each decoded as a `RawFd` (`chunks_exact(size_of::<RawFd>())`). -/

def SOL_SOCKET : Int := 1
def SCM_RIGHTS : Int := 1

structure ControlMessage where
  cmsg_level : Int
  cmsg_type : Int
  data : List Nat
deriving DecidableEq, Repr

/-- Decode one little-endian 4-byte chunk as an `i32` file descriptor. -/
def decode_i32_le (b0 b1 b2 b3 : Nat) : Int :=
  u32_as_i32 (b0 + 2 ^ 8 * b1 + 2 ^ 16 * b2 + 2 ^ 24 * b3)

/-- `chunks_exact(4)` over the data bytes, each chunk read as a `RawFd`;
a trailing partial chunk is dropped, as `chunks_exact` does. -/
def extract_fds : List Nat → List Int
  | b0 :: b1 :: b2 :: b3 :: rest => decode_i32_le b0 b1 b2 b3 :: extract_fds rest
  | _ => []

/-- The errors of the control-message portion of `recv`. -/
inductive RecvFdsError where
  | missingFds
  | expectedScmRights
  | wrongFdCount
deriving DecidableEq, Repr

/-- The control-message portion of `ProxyMessageBuffer::recv`
(src/lxcseccomp.rs lines 152-186), faithful to the source: take the first
control message; bail only when `cmsg_level != SOL_SOCKET`
**and** `cmsg_type != SCM_RIGHTS` (the source uses `&&`); decode the data
bytes as fds; require exactly two.  On success the first fd becomes the
request's pidfd and the second its `/proc/<pid>/mem` file. -/
def recv_fds (cmsgs : List ControlMessage) : Except RecvFdsError (Int × Int) :=
  match cmsgs with
  | [] => .error .missingFds
  | c :: _ =>
    if c.cmsg_level ≠ SOL_SOCKET ∧ c.cmsg_type ≠ SCM_RIGHTS then .error .expectedScmRights
    else
      match extract_fds c.data with
      | [pidfd, memfd] => .ok (pidfd, memfd)
      | _ => .error .wrongFdCount

/-! ## Fork result record (src/fork.rs)

The child encodes the closure's outcome into the 16-byte `repr(C, packed)`
record `Data { val : i64, error : i32, failure : i32 }` (Fork::new, lines
66-83); the parent decodes it in `Fork::get_result` (lines 137-155). -/

/-- The outcome of the forked closure as the child sees it:
`Ok(SyscallStatus)` or a local `io::Error`, the latter carrying
`raw_os_error()` (`None` for synthetic errors). -/
inductive ChildOutcome where
  | status (s : SyscallStatus)
  | failure (os_code : Option Int)
deriving DecidableEq, Repr

/-- The 16-byte pipe record `Data` of src/fork.rs. -/
structure ForkData where
  val : Int
  error : Int
  failure : Int
deriving DecidableEq, Repr

/-- The child-side encoding (src/fork.rs lines 66-83):
`Ok(Ok(v))` is `(v, 0, 0)`, `Ok(Err(e))` is `(-1, e, 0)`, `Err(io)` is
`(-1, -1, io.raw_os_error().unwrap_or(EFAULT))`. -/
def fork_encode : ChildOutcome → ForkData
  | .status (.ok v) => ⟨v, 0, 0⟩
  | .status (.err e) => ⟨-1, e, 0⟩
  | .failure c => ⟨-1, -1, c.getD (EFAULT : Nat)⟩

/-- What the parent concludes from the record: a local I/O error with a
raw OS code, or a syscall status to reply with. -/
inductive ForkResult where
  | localError (code : Int)
  | status (s : SyscallStatus)
deriving DecidableEq, Repr

/-- The parent-side decoding, `Fork::get_result` (src/fork.rs lines
148-154): `failure != 0` is a local I/O error with that code, else
`error == 0` is `Ok(val)`, else `Err(error)`. -/
def fork_decode (d : ForkData) : ForkResult :=
  if d.failure ≠ 0 then .localError d.failure
  else if d.error = 0 then .status (.ok d.val)
  else .status (.err d.error)

/-! ## Per-connection servicing (src/client.rs)

`Client::main_do` (lines 37-49) loops: allocate a fresh
`ProxyMessageBuffer`, `recv` one request, then **spawn**
`__handle_syscall` for it as an independent task (line 47,
`crate::spawn(...)`) and immediately loop back into `recv`.  Each spawned
`__handle_syscall` eventually performs `msg.respond(&self.socket)` (line
84).  We model one connection's session as a transition system: the main
task receives requests in order and spawns a handler task per request; a
scheduler choice sequence decides, at each step, whether the main task or
one of the pending handler tasks runs.  This is the cooperative-scheduler
semantics the crate's runtime (tokio, src/main.rs lines 33-35 and 106-110)
provides for spawned tasks. -/

/-- Socket-visible events of one connection: receiving request `i`, and
sending the reply for request `i`. -/
inductive ClientEvent where
  | recv (i : Nat)
  | respond (i : Nat)
deriving DecidableEq, Repr

/-- A scheduler choice: run the main receive loop one step, or run the
spawned handler task of request `i` to its `respond`. -/
inductive SchedChoice where
  | main
  | handler (i : Nat)
deriving DecidableEq, Repr

/-- Session state: how many requests the main loop has received, the
spawned handler tasks that have not yet responded, and the socket event
trace so far. -/
structure ClientState where
  nextRecv : Nat
  pending : List Nat
  trace : List ClientEvent
deriving DecidableEq, Repr

/-- One scheduling step of a session with `n` total requests.  `main`
performs the next `recv` and spawns its handler (client.rs lines 41-47);
`handler i` runs a pending handler task through its `respond`
(client.rs line 84).  A choice that has no runnable task is rejected. -/
def client_step (n : Nat) (s : ClientState) : SchedChoice → Option ClientState
  | .main =>
    if s.nextRecv < n then
      some { nextRecv := s.nextRecv + 1,
             pending := s.pending ++ [s.nextRecv],
             trace := s.trace ++ [.recv s.nextRecv] }
    else none
  | .handler i =>
    if i ∈ s.pending then
      some { s with pending := s.pending.erase i,
                    trace := s.trace ++ [.respond i] }
    else none

/-- Run a choice sequence from a state. -/
def client_run_from (n : Nat) (s : ClientState) : List SchedChoice → Option ClientState
  | [] => some s
  | c :: rest =>
    match client_step n s c with
    | none => none
    | some t => client_run_from n t rest

/-- The trace of a complete session of `n` requests under a scheduler
choice sequence: all `n` requests received and every handler task run to
its reply. -/
def client_session (n : Nat) (choices : List SchedChoice) : Option (List ClientEvent) :=
  match client_run_from n ⟨0, [], []⟩ choices with
  | none => none
  | some s =>
    if s.nextRecv = n ∧ s.pending = [] then some s.trace else none

/-- The reply indices of a trace, in the order the replies were sent. -/
def respondsOf (tr : List ClientEvent) : List Nat :=
  tr.filterMap fun e =>
    match e with
    | .respond i => some i
    | _ => none

/-- The request indices of a trace, in the order they were received. -/
def recvsOf (tr : List ClientEvent) : List Nat :=
  tr.filterMap fun e =>
    match e with
    | .recv i => some i
    | _ => none

/-- Whether a list of reply indices is in arrival order. -/
def monotone_list : List Nat → Bool
  | [] => true
  | [_] => true
  | a :: b :: rest => a ≤ b && monotone_list (b :: rest)

/-- A handler error as `Client::__handle_syscall` (src/client.rs lines
55-69) classifies it by downcasting: an `Errno`, an `io::Error` (with or
without a raw OS code), or anything else. -/
inductive HandlerError where
  | errno (e : Nat)
  | ioError (os_code : Option Int)
  | other
deriving DecidableEq, Repr

/-- The downcast chain of `__handle_syscall`: `Errno e` and OS-coded
`io::Error`s become a normal `SyscallStatus::Err` reply; everything else
(`none`) is re-raised, which `wrap_error` answers by shutting the
connection down. -/
def error_to_status : HandlerError → Option SyscallStatus
  | .errno e => some (.err (e : Nat))
  | .ioError (some c) => some (.err c)
  | .ioError none => none
  | .other => none

end Syscalld

namespace Syscalld

/-! ## Theorems -/

/-- Componentwise size comparison is structure equality. -/
theorem sizes_beq_iff (s t : SeccompNotifSizes) :
    (s.notif == t.notif && s.notif_resp == t.notif_resp && s.data == t.data) = true ↔
      s = t := by
  cases s
  cases t
  simp [SeccompNotifSizes.mk.injEq, and_assoc]

/-- `check_sizes` succeeds exactly when the envelope sizes equal the cached
startup sizes. -/
theorem check_sizes_iff (b : ProxyMessageBuffer) :
    check_sizes b = true ↔ b.proxy_msg.sizes = b.sizes :=
  sizes_beq_iff b.proxy_msg.sizes b.sizes

/-- C1: For every mknod or mknodat request, the handler accepts exactly the
`(S_IFMT, major, minor)` combinations `(S_IFREG,0,0)`, `(S_IFCHR,0,0)`,
`(S_IFCHR,5,0)`, `(S_IFCHR,5,1)`, `(S_IFCHR,5,2)`, `(S_IFCHR,1,3)`,
`(S_IFCHR,1,5)`, `(S_IFCHR,1,7)`, `(S_IFCHR,1,8)`, `(S_IFCHR,1,9)`; for
every other mode/device combination the result is `EPERM` (reply `val = -1`,
`error = -EPERM`), produced synchronously without invoking the fork
helper. -/
theorem mknod_accept_list :
    (∀ mode dev : Nat, check_mknod_dev mode dev = true ↔
        (mode &&& S_IFMT, major dev, minor dev) ∈ allowedDevs) ∧
    (∀ args mode dev, arg_mode_t args 1 = .ok mode → arg_dev_t args 2 = .ok dev →
        (sys_mknod args = .reply EPERM ↔ check_mknod_dev mode dev = false) ∧
        (check_mknod_dev mode dev = true → sys_mknod args = .fork mode dev)) ∧
    (∀ args mode dev, arg_mode_t args 2 = .ok mode → arg_dev_t args 3 = .ok dev →
        (sys_mknodat args = .reply EPERM ↔ check_mknod_dev mode dev = false) ∧
        (check_mknod_dev mode dev = true → sys_mknodat args = .fork mode dev)) ∧
    (∀ r, write_response r (.err (EPERM : Nat)) =
        { r with val := -1, error := -(EPERM : Nat) }) := by
  refine ⟨?_, ?_, ?_, fun r => rfl⟩
  · intro mode dev
    simp only [check_mknod_dev, allowedDevs, List.mem_cons, List.not_mem_nil, or_false,
      Prod.mk.injEq, Bool.or_eq_true, Bool.and_eq_true, beq_iff_eq, and_assoc, or_assoc]
  · intro args mode dev hm hd
    simp only [sys_mknod, hm, hd]
    by_cases h : check_mknod_dev mode dev <;> simp [h]
  · intro args mode dev hm hd
    simp only [sys_mknodat, hm, hd]
    by_cases h : check_mknod_dev mode dev <;> simp [h]

/-- Witness for C1: `mknod` of a `(S_IFCHR, 8, 0)` device (`/dev/sda`-like)
replies `EPERM` without forking, while `(S_IFCHR, 1, 3)` (`/dev/null`)
proceeds into the fork helper. -/
theorem mknod_accept_list_witness :
    sys_mknod [0, 8192, 2048, 0, 0, 0] = .reply EPERM ∧
    sys_mknod [0, 8192, 259, 0, 0, 0] = .fork 8192 259 :=
  ⟨((mknod_accept_list.2.1 [0, 8192, 2048, 0, 0, 0] 8192 2048 (by decide) (by decide)).1).mpr
      (by decide),
   (mknod_accept_list.2.1 [0, 8192, 259, 0, 0, 0] 8192 259 (by decide) (by decide)).2
      (by decide)⟩

/-- C2 (failing input): a first control message at level `SOL_SOCKET` whose
type is **not** `SCM_RIGHTS` (here type 2, `SCM_CREDENTIALS`) with eight
data bytes is accepted by the control-message check of
`ProxyMessageBuffer::recv`, and its data bytes are adopted as the pidfd and
mem fd.  The guard at src/lxcseccomp.rs line 156 uses `&&` where the
`bail!("expected SCM_RIGHTS control message")` it guards requires `||`, so
the claimed rejection of non-`SCM_RIGHTS` ancillary data does not
happen. -/
theorem recv_fds_accepts_non_scm_rights :
    (2 : Int) ≠ SCM_RIGHTS ∧
    recv_fds [⟨SOL_SOCKET, 2, [0, 0, 0, 0, 0, 0, 0, 0]⟩] = .ok (0, 0) := by
  constructor
  · decide
  · rfl

/-- C3: `set_len` (hence `recv`, which propagates its error and makes the
connection shut down) succeeds exactly when, in this order: the byte count
is at least `sizeof(envelope) + sizes.notif + sizes.notif_resp`;
`reserved0 == 0`; the envelope sizes equal the cached startup sizes; the
excess over the fixed size fits the cookie capacity; `cookie_len` fits a
`usize`; and the byte count is exactly the fixed size plus `cookie_len`.
Each conjunct after the first characterizes the error fired when every
earlier check passed and that check fails. -/
theorem set_len_validation (b : ProxyMessageBuffer) (len : Nat) :
    ((∃ b2, set_len b len = .ok b2) ↔
      (seccomp_packet_size b ≤ len ∧ b.proxy_msg.reserved0 = 0 ∧
       b.proxy_msg.sizes = b.sizes ∧
       len - seccomp_packet_size b ≤ b.cookie_capacity ∧
       b.proxy_msg.cookie_len ≤ USIZE_MAX ∧
       len = seccomp_packet_size b + b.proxy_msg.cookie_len)) ∧
    (len < seccomp_packet_size b → set_len b len = .error .tooShort) ∧
    (seccomp_packet_size b ≤ len → b.proxy_msg.reserved0 ≠ 0 →
       set_len b len = .error .reservedNonzero) ∧
    (seccomp_packet_size b ≤ len → b.proxy_msg.reserved0 = 0 →
       b.proxy_msg.sizes ≠ b.sizes → set_len b len = .error .sizesMismatch) ∧
    (seccomp_packet_size b ≤ len → b.proxy_msg.reserved0 = 0 →
       b.proxy_msg.sizes = b.sizes → b.cookie_capacity < len - seccomp_packet_size b →
       set_len b len = .error .tooLong) ∧
    (seccomp_packet_size b ≤ len → b.proxy_msg.reserved0 = 0 →
       b.proxy_msg.sizes = b.sizes → len - seccomp_packet_size b ≤ b.cookie_capacity →
       USIZE_MAX < b.proxy_msg.cookie_len → set_len b len = .error .cookieLenOverflow) ∧
    (seccomp_packet_size b ≤ len → b.proxy_msg.reserved0 = 0 →
       b.proxy_msg.sizes = b.sizes → len - seccomp_packet_size b ≤ b.cookie_capacity →
       b.proxy_msg.cookie_len ≤ USIZE_MAX →
       len ≠ seccomp_packet_size b + b.proxy_msg.cookie_len →
       set_len b len = .error .cookieLenMismatch) := by
  have hcs := check_sizes_iff b
  simp only [set_len]
  split_ifs with h1 h2 h3 h4 h5 h6 <;>
    simp_all <;>
    omega

/-- A valid 136-byte message against a buffer whose cached sizes are the
compiled sizes: zero reserved field, matching envelope sizes, no cookie. -/
def exampleBuffer : ProxyMessageBuffer :=
  { proxy_msg := ⟨0, 5, 6, compiledSizes, 0⟩,
    seccomp_notif := ⟨77, 1, 0, ⟨133, 0xc000003e, 0, [0, 0, 0, 0, 0, 0]⟩⟩,
    seccomp_resp := ⟨0, 0, 0, 0⟩,
    cookie_len_set := 0,
    cookie_capacity := 64,
    sizes := compiledSizes }

/-- Witness for C3: the example buffer accepts exactly a 136-byte message,
and a 135-byte one is the too-short error. -/
theorem set_len_validation_witness :
    (∃ b2, set_len exampleBuffer 136 = .ok b2) ∧
    set_len exampleBuffer 135 = .error .tooShort :=
  ⟨(set_len_validation exampleBuffer 136).1.mpr (by decide),
   (set_len_validation exampleBuffer 135).2.1 (by decide)⟩

/-- C6: after a successful `recv` (i.e. a successful `set_len`), the
response buffer holds `resp.id = notif.id`, `val = -1`,
`error = -ENOSYS`, `flags = 0`, and `respond` sends exactly
`sizeof(envelope) + sizes.notif + sizes.notif_resp` bytes (the 3-entry
gather list without the cookie), failing with the explicit
`truncated message?` error on any other sent count. -/
theorem recv_prepares_response (b b2 : ProxyMessageBuffer) (len : Nat)
    (h : set_len b len = .ok b2) :
    b2.seccomp_resp =
      { id := b.seccomp_notif.id, val := -1, error := -(ENOSYS : Nat), flags := 0 } ∧
    b2.seccomp_resp.id = b.seccomp_notif.id ∧
    (b.sizes = compiledSizes →
       respond_len = proxyMsgSize + b.sizes.notif + b.sizes.notif_resp) ∧
    (∀ sent, respond sent = .ok () ↔ sent = respond_len) ∧
    (∀ sent, sent ≠ respond_len → respond sent = .error "truncated message?") := by
  simp only [set_len] at h
  split_ifs at h
  rw [Except.ok.injEq] at h
  subst h
  refine ⟨rfl, rfl, ?_, ?_, ?_⟩
  · intro hbs
    rw [hbs]
    rfl
  · intro sent
    simp only [respond]
    split_ifs with hs
    · simp [hs]
    · simp_all
  · intro sent hs
    simp [respond, hs]

/-- Witness for C6: applying the theorem to the example buffer and a
136-byte message. -/
theorem recv_prepares_response_witness :
    (prepare_response { exampleBuffer with cookie_len_set := 0 }).seccomp_resp.id = 77 ∧
    respond 136 = .ok () := by
  have h := recv_prepares_response exampleBuffer
    (prepare_response { exampleBuffer with cookie_len_set := 0 }) 136 (by decide)
  exact ⟨by rw [h.1]; rfl, (h.2.2.2.1 136).mpr rfl⟩


/-- C7: the fork result record round-trips: the child's encoding of the
closure outcome into the 16-byte `{val, error, failure}` record followed by
the parent's decode yields the original outcome — `Ok(v)` for any value,
`Err(errno)` for positive errnos, and a local I/O error carrying
`raw_os_error() ?? EFAULT` for local failures. -/
theorem fork_record_roundtrip :
    (∀ v : Int, fork_decode (fork_encode (.status (.ok v))) = .status (.ok v)) ∧
    (∀ e : Int, 0 < e → fork_decode (fork_encode (.status (.err e))) = .status (.err e)) ∧
    (∀ c : Option Int, (∀ x, c = some x → x ≠ 0) →
       fork_decode (fork_encode (.failure c)) = .localError (c.getD (EFAULT : Nat))) := by
  refine ⟨fun v => rfl, fun e he => ?_, fun c hc => ?_⟩
  · simp only [fork_encode, fork_decode]
    rw [if_neg (by simp), if_neg (by omega)]
  · cases c with
    | none => rfl
    | some x =>
      have hx := hc x rfl
      simp only [fork_encode, fork_decode, Option.getD]
      rw [if_pos (by simpa using hx)]

/-- Witness for C7: a syscall error errno 17 (`EEXIST`) and a local failure
without an OS code round-trip as claimed. -/
theorem fork_record_roundtrip_witness :
    fork_decode (fork_encode (.status (.err 17))) = .status (.err 17) ∧
    fork_decode (fork_encode (.failure none)) = .localError ((EFAULT : Nat) : Int) :=
  ⟨fork_record_roundtrip.2.1 17 (by norm_num),
   fork_record_roundtrip.2.2 none (by intro x hx; cases hx)⟩

/-- C4: for `Q_GETNEXTQUOTA` requests of kind `USRQUOTA` or `GRPQUOTA` the
caller's id is translated through the pidfd's uid/gid map (`map_from`)
before `quotactl` is invoked, and the kernel-returned `dqb_id` is
translated via `map_into` before being written back, `ERANGE` when either
id is unmapped; with uid_map `[(0, 100000, 65536)]` and request id 0, a
kernel `dqb_id` of 100123 is written back as 123, and a successful handler
reply is `val = 0, error = 0`. -/
theorem q_getnextquota_id_translation :
    (∀ u g : IdMap, ∀ id : Int,
       (map_from u (i32_as_u64 id) = none → uid_gid_arg u g USRQUOTA id = .error ERANGE) ∧
       (∀ hid, map_from u (i32_as_u64 id) = some hid → hid ≤ 2 ^ 31 - 1 →
          uid_gid_arg u g USRQUOTA id = .ok ((hid : Int), some u)) ∧
       (map_from g (i32_as_u64 id) = none → uid_gid_arg u g GRPQUOTA id = .error ERANGE) ∧
       (∀ hid, map_from g (i32_as_u64 id) = some hid → hid ≤ 2 ^ 31 - 1 →
          uid_gid_arg u g GRPQUOTA id = .ok ((hid : Int), some g))) ∧
    (∀ (m : IdMap) (d : Nat), map_into m d = none →
        q_getnextquota_out_id (some m) d = .error ERANGE) ∧
    (∀ (m : IdMap) (d v : Nat), map_into m d = some v →
        q_getnextquota_out_id (some m) d = .ok (v % 2 ^ 32)) ∧
    (uid_gid_arg [⟨0, 100000, 65536⟩] [] USRQUOTA 0 =
        .ok (100000, some [⟨0, 100000, 65536⟩]) ∧
     q_getnextquota_out_id (some [⟨0, 100000, 65536⟩]) 100123 = .ok 123 ∧
     ∀ r, write_response r (.ok 0) = { r with val := 0, error := 0 }) := by
  refine ⟨?_, ?_, ?_, by decide, by decide, fun r => rfl⟩
  · intro u g id
    refine ⟨fun h => ?_, fun hid h hle => ?_, fun h => ?_, fun hid h hle => ?_⟩ <;>
      simp [uid_gid_arg, USRQUOTA, GRPQUOTA, h] <;>
      omega
  · intro m d h
    simp [q_getnextquota_out_id, h]
  · intro m d v h
    simp [q_getnextquota_out_id, h]

/-- Witness for C4: the unmapped id 70000 (outside the single 65536-wide
entry) yields `ERANGE` on input translation, and a mapped `dqb_id` is
rewritten through `map_into`. -/
theorem q_getnextquota_id_translation_witness :
    uid_gid_arg [⟨0, 100000, 65536⟩] [] USRQUOTA 70000 = .error ERANGE ∧
    q_getnextquota_out_id (some [⟨0, 100000, 65536⟩]) 50 = .error ERANGE :=
  ⟨((q_getnextquota_id_translation.1 [⟨0, 100000, 65536⟩] [] 70000).1) (by decide),
   (q_getnextquota_id_translation.2.1 [⟨0, 100000, 65536⟩] 50) (by decide)⟩

/-- C8 (counterexample): `arg_int` does not range-check against `c_int`:
the argument value `2^31` does not fit a `c_int`, yet `arg_int` returns
`Ok(-2^31)` (the wrapped `u as c_int` cast) instead of the claimed
`EINVAL`. -/
theorem arg_int_wraps_counterexample :
    arg_int [2 ^ 31, 0, 0, 0, 0, 0] 0 = .ok (-(2 ^ 31 : Int)) ∧
    arg_int [2 ^ 31, 0, 0, 0, 0, 0] 0 ≠ .error EINVAL := by decide

/-- C8 (amended): `arg_uint` and `arg_mode_t` range-check against their
32-bit target types and report `EINVAL` above `u32::MAX`; `arg_dev_t`
returns the raw `u64` unchecked (every value fits `dev_t`); `arg_int`
range-checks only against `c_uint` and reinterprets the low 32 bits as a
two's-complement `c_int`, so values in `[2^31, 2^32)` become negative ints
without an error. -/
theorem arg_conversions (args : List Nat) (i : Nat) (v : Nat)
    (hv : args.get? i = some v) :
    (arg_uint args i = if v < 2 ^ 32 then .ok v else .error EINVAL) ∧
    (arg_mode_t args i = if v < 2 ^ 32 then .ok v else .error EINVAL) ∧
    (arg_dev_t args i = .ok v) ∧
    (arg_int args i = if v < 2 ^ 32 then .ok (u32_as_i32 v) else .error EINVAL) ∧
    (2 ^ 31 ≤ v → v < 2 ^ 32 →
       arg_int args i = .ok ((v : Int) - 2 ^ 32) ∧ ((v : Int) - 2 ^ 32) < 0) := by
  have ha : arg args i = .ok v := by unfold arg; rw [hv]
  refine ⟨?_, ?_, ?_, ?_, fun h1 h2 => ?_⟩
  · simp only [arg_uint, ha, Except.bind]
  · simp only [arg_mode_t, ha, Except.bind]
  · exact ha
  · simp only [arg_int, arg_uint, ha, Except.bind]
    split_ifs <;> rfl
  · have hm : v % 2 ^ 32 = v := Nat.mod_eq_of_lt h2
    constructor
    · simp only [arg_int, arg_uint, ha, Except.bind, if_pos h2, Except.map, u32_as_i32, hm,
        if_neg (by omega : ¬ v < 2 ^ 31)]
    · have : (2 ^ 31 : Int) ≤ (v : Int) := by exact_mod_cast h1
      have : (v : Int) < 2 ^ 32 := by exact_mod_cast h2
      omega

/-- Witness for C8 (amended): value 5 converts everywhere, value
`2^31 + 3` becomes the negative int `-2^31 + 3`. -/
theorem arg_conversions_witness :
    arg_uint [5, 0, 0, 0, 0, 0] 0 = .ok 5 ∧
    arg_int [2 ^ 31 + 3, 0, 0, 0, 0, 0] 0 = .ok (-(2 ^ 31 : Int) + 3) := by
  constructor
  · have h := (arg_conversions [5, 0, 0, 0, 0, 0] 0 5 (by decide)).1
    simpa using h
  · have h := (arg_conversions [2 ^ 31 + 3, 0, 0, 0, 0, 0] 0 (2 ^ 31 + 3) (by decide)).2.2.2.2
      (by norm_num) (by norm_num)
    rw [h.1]
    norm_num

/-- C10: an argument accessor invoked with index ≥ 6 (the request's `args`
array has exactly six entries) yields `ERANGE`, not `EINVAL`, and the
handler error path turns it into a normal reply with `val = -1`,
`error = -ERANGE`. -/
theorem arg_out_of_range_erange (args : List Nat) (hlen : args.length = 6)
    (i : Nat) (hi : 6 ≤ i) :
    arg args i = .error ERANGE ∧
    arg_uint args i = .error ERANGE ∧
    arg_int args i = .error ERANGE ∧
    arg_mode_t args i = .error ERANGE ∧
    arg_dev_t args i = .error ERANGE ∧
    ERANGE ≠ EINVAL ∧
    error_to_status (.errno ERANGE) = some (.err (ERANGE : Nat)) ∧
    (∀ r, write_response r (.err (ERANGE : Nat)) =
        { r with val := -1, error := -(ERANGE : Nat) }) := by
  have hg : args.get? i = none := by
    rw [List.get?_eq_none]
    omega
  have ha : arg args i = .error ERANGE := by unfold arg; rw [hg]
  refine ⟨ha, ?_, ?_, ?_, ?_, by decide, rfl, fun r => rfl⟩
  · unfold arg_uint
    rw [ha]
    rfl
  · unfold arg_int arg_uint
    rw [ha]
    rfl
  · unfold arg_mode_t
    rw [ha]
    rfl
  · unfold arg_dev_t
    exact ha

/-- Witness for C10: accessing argument 6 of a six-entry args array. -/
theorem arg_out_of_range_erange_witness :
    arg [0, 0, 0, 0, 0, 0] 6 = .error ERANGE :=
  (arg_out_of_range_erange [0, 0, 0, 0, 0, 0] rfl 6 (by norm_num)).1

/-- With pairwise-disjoint host ranges, `map_into` answers any id inside a
member entry's host range with that entry's translation. -/
theorem map_into_eq_of_mem (m : IdMap) (hd : List.Pairwise hostDisjoint m)
    (e : IdMapEntry) (he : e ∈ m) (h : Nat) (h1 : e.host ≤ h)
    (h2 : h < e.host + e.range) :
    map_into m h = some (e.ns + h - e.host) := by
  induction m with
  | nil => cases he
  | cons a rest ih =>
    rw [List.pairwise_cons] at hd
    rcases List.mem_cons.mp he with rfl | hmem
    · simp only [map_into]
      rw [if_pos ⟨h1, h2⟩]
    · simp only [map_into]
      rw [if_neg ?_]
      · exact ih hd.2 hmem
      · rintro ⟨ha1, ha2⟩
        rcases hd.1 e hmem with hc | hc <;> omega

/-- With pairwise-disjoint namespace ranges, `map_from` answers any id
inside a member entry's namespace range with that entry's translation. -/
theorem map_from_eq_of_mem (m : IdMap) (hd : List.Pairwise nsDisjoint m)
    (e : IdMapEntry) (he : e ∈ m) (n : Nat) (h1 : e.ns ≤ n)
    (h2 : n < e.ns + e.range) :
    map_from m n = some (e.host + n - e.ns) := by
  induction m with
  | nil => cases he
  | cons a rest ih =>
    rw [List.pairwise_cons] at hd
    rcases List.mem_cons.mp he with rfl | hmem
    · simp only [map_from]
      rw [if_pos ⟨h1, h2⟩]
    · simp only [map_from]
      rw [if_neg ?_]
      · exact ih hd.2 hmem
      · rintro ⟨ha1, ha2⟩
        rcases hd.1 e hmem with hc | hc <;> omega

/-- C5 (counterexample): with the single entry
`(ns = 0, host = 100000, range = 65536)`, `map_from` applied to the host id
100000 (and `map_into` applied to the namespace id 0) returns `none`, so
the claimed compositions `map_into ∘ map_from` on the host range and
`map_from ∘ map_into` on the namespace range both fail: in the code
`map_from` maps namespace ids to host ids and `map_into` maps host ids to
namespace ids, the opposite of the claim's direction labels. -/
theorem idmap_roundtrip_counterexample :
    ((map_from [⟨0, 100000, 65536⟩] 100000).bind (map_into [⟨0, 100000, 65536⟩]) ≠
        some 100000) ∧
    ((map_into [⟨0, 100000, 65536⟩] 0).bind (map_from [⟨0, 100000, 65536⟩]) ≠
        some 0) := by decide

/-- C5 (amended): with the direction labels as in the code (`map_into`
host→ns, `map_from` ns→host), for every id map whose entries have
pairwise-disjoint host ranges and pairwise-disjoint namespace ranges (as
kernel id maps do) and every entry `(ns, host, range)` of it:
`map_from (map_into h) = h` for every `h ∈ [host, host+range)`, and
`map_into (map_from n) = n` for every `n ∈ [ns, ns+range)`. -/
theorem idmap_roundtrip (m : IdMap) (hwf : IdMapWF m) (e : IdMapEntry) (he : e ∈ m) :
    (∀ h, e.host ≤ h → h < e.host + e.range →
       (map_into m h).bind (map_from m) = some h) ∧
    (∀ n, e.ns ≤ n → n < e.ns + e.range →
       (map_from m n).bind (map_into m) = some n) := by
  obtain ⟨hhost, hns⟩ := hwf
  constructor
  · intro h h1 h2
    rw [map_into_eq_of_mem m hhost e he h h1 h2]
    simp only [Option.some_bind]
    rw [map_from_eq_of_mem m hns e he (e.ns + h - e.host) (by omega) (by omega)]
    congr 1
    omega
  · intro n h1 h2
    rw [map_from_eq_of_mem m hns e he n h1 h2]
    simp only [Option.some_bind]
    rw [map_into_eq_of_mem m hhost e he (e.host + n - e.ns) (by omega) (by omega)]
    congr 1
    omega

/-- Witness for C5 (amended): the single-entry map
`(ns = 0, host = 100000, range = 65536)` round-trips the host id 100123 and
the namespace id 123. -/
theorem idmap_roundtrip_witness :
    (map_into [⟨0, 100000, 65536⟩] 100123).bind (map_from [⟨0, 100000, 65536⟩]) =
      some 100123 ∧
    (map_from [⟨0, 100000, 65536⟩] 123).bind (map_into [⟨0, 100000, 65536⟩]) =
      some 123 :=
  ⟨(idmap_roundtrip [⟨0, 100000, 65536⟩]
      ⟨List.pairwise_singleton _ _, List.pairwise_singleton _ _⟩
      ⟨0, 100000, 65536⟩ (List.mem_singleton.mpr rfl)).1 100123 (by norm_num) (by norm_num),
   (idmap_roundtrip [⟨0, 100000, 65536⟩]
      ⟨List.pairwise_singleton _ _, List.pairwise_singleton _ _⟩
      ⟨0, 100000, 65536⟩ (List.mem_singleton.mpr rfl)).2 123 (by norm_num) (by norm_num)⟩

/-! ### Connection-task scheduling lemmas -/

theorem recvsOf_append (t u : List ClientEvent) :
    recvsOf (t ++ u) = recvsOf t ++ recvsOf u :=
  List.filterMap_append t u _

theorem recvsOf_respond_singleton (i : Nat) :
    recvsOf [ClientEvent.respond i] = [] := rfl

theorem mem_recvsOf (t : List ClientEvent) (i : Nat) :
    i ∈ recvsOf t ↔ ClientEvent.recv i ∈ t := by
  simp only [recvsOf, List.mem_filterMap]
  constructor
  · rintro ⟨a, ha, hfa⟩
    cases a with
    | recv j => simp at hfa; subst hfa; exact ha
    | respond j => simp at hfa
  · intro hm
    exact ⟨.recv i, hm, rfl⟩

/-- The reachable-state invariant of a connection session: requests have
been received in order `0, 1, …`, each pending handler task belongs to a
received request that has not been answered, and every reply already sent
follows its own request in the trace. -/
def ClientInv (s : ClientState) : Prop :=
  recvsOf s.trace = List.range s.nextRecv ∧
  s.pending.Nodup ∧
  (∀ i ∈ s.pending, i < s.nextRecv ∧
     [ClientEvent.recv i].Sublist s.trace ∧ ClientEvent.respond i ∉ s.trace) ∧
  (∀ i, ClientEvent.respond i ∈ s.trace →
     [ClientEvent.recv i, ClientEvent.respond i].Sublist s.trace)

theorem client_step_inv (n : Nat) (s t : ClientState) (c : SchedChoice)
    (hs : ClientInv s) (h : client_step n s c = some t) : ClientInv t := by
  obtain ⟨hrecv, hnd, hpend, hresp⟩ := hs
  cases c with
  | main =>
    simp only [client_step] at h
    split_ifs at h with hlt
    rw [Option.some.injEq] at h
    subst h
    refine ⟨?_, ?_, ?_, ?_⟩
    · simp only [recvsOf_append, hrecv, List.range_succ]
      rfl
    · rw [List.nodup_append]
      refine ⟨hnd, List.nodup_singleton _, ?_⟩
      intro a ha hb
      rw [List.mem_singleton] at hb
      subst hb
      exact absurd (hpend _ ha).1 (lt_irrefl _)
    · intro i hi
      rw [List.mem_append, List.mem_singleton] at hi
      rcases hi with hi | rfl
      · obtain ⟨h1, h2, h3⟩ := hpend i hi
        refine ⟨Nat.lt_succ_of_lt h1, h2.trans (List.sublist_append_left _ _), ?_⟩
        rw [List.mem_append, List.mem_singleton]
        rintro (hc | hc)
        · exact h3 hc
        · cases hc
      · refine ⟨Nat.lt_succ_self _, List.sublist_append_right _ _, ?_⟩
        rw [List.mem_append, List.mem_singleton]
        rintro (hc | hc)
        · have := (mem_recvsOf s.trace s.nextRecv).mpr
            ((hresp _ hc).subset (by simp))
          rw [hrecv, List.mem_range] at this
          omega
        · cases hc
    · intro i hi
      rw [List.mem_append, List.mem_singleton] at hi
      rcases hi with hi | hi
      · exact (hresp i hi).trans (List.sublist_append_left _ _)
      · cases hi
  | handler i =>
    simp only [client_step] at h
    split_ifs at h with hmem
    rw [Option.some.injEq] at h
    subst h
    refine ⟨?_, ?_, ?_, ?_⟩
    · simpa only [recvsOf_append, recvsOf_respond_singleton, List.append_nil] using hrecv
    · exact hnd.erase i
    · intro j hj
      rw [hnd.mem_erase_iff] at hj
      obtain ⟨hne, hjp⟩ := hj
      obtain ⟨h1, h2, h3⟩ := hpend j hjp
      refine ⟨h1, h2.trans (List.sublist_append_left _ _), ?_⟩
      rw [List.mem_append, List.mem_singleton]
      rintro (hc | hc)
      · exact h3 hc
      · rw [ClientEvent.respond.injEq] at hc
        exact hne hc
    · intro j hj
      rw [List.mem_append, List.mem_singleton] at hj
      rcases hj with hj | hj
      · exact (hresp j hj).trans (List.sublist_append_left _ _)
      · rw [ClientEvent.respond.injEq] at hj
        subst hj
        obtain ⟨_, h2, _⟩ := hpend j hmem
        exact List.Sublist.append h2 (List.Sublist.refl _)

theorem client_run_from_inv (n : Nat) (choices : List SchedChoice) (s t : ClientState)
    (hs : ClientInv s) (h : client_run_from n s choices = some t) : ClientInv t := by
  induction choices generalizing s with
  | nil =>
    simp only [client_run_from, Option.some.injEq] at h
    subst h
    exact hs
  | cons c rest ih =>
    simp only [client_run_from] at h
    cases hc : client_step n s c with
    | none => rw [hc] at h; cases h
    | some u =>
      rw [hc] at h
      exact ih u (client_step_inv n s u c hs hc) h

/-- C9 (counterexample): `Client::main_do` spawns `__handle_syscall` as an
independent task per request (src/client.rs line 47) instead of awaiting
it, so there is a schedule of a two-request session — receive both
requests, then run the handler tasks in reverse — whose replies are sent
out of arrival order, refuting the claimed sequential, non-interleaving
servicing. -/
theorem client_reply_order_counterexample :
    client_session 2 [.main, .main, .handler 1, .handler 0] =
      some [.recv 0, .recv 1, .respond 1, .respond 0] ∧
    monotone_list (respondsOf
      [ClientEvent.recv 0, .recv 1, .respond 1, .respond 0]) = false := by
  decide

/-- C9 (amended): what the spawning per-request structure does guarantee:
in every complete session, the requests are received sequentially in
arrival order (`recvsOf tr = range n`), and each reply is sent only after
its own request was received — but replies of different requests may
interleave arbitrarily. -/
theorem client_replies_follow_requests (n : Nat) (choices : List SchedChoice)
    (tr : List ClientEvent) (h : client_session n choices = some tr) :
    recvsOf tr = List.range n ∧
    ∀ i, ClientEvent.respond i ∈ tr →
      [ClientEvent.recv i, ClientEvent.respond i].Sublist tr := by
  simp only [client_session] at h
  cases hr : client_run_from n ⟨0, [], []⟩ choices with
  | none => rw [hr] at h; cases h
  | some s =>
    rw [hr] at h
    dsimp only at h
    split_ifs at h with hc
    rw [Option.some.injEq] at h
    subst h
    have hinv := client_run_from_inv n choices ⟨0, [], []⟩ s
      (by refine ⟨rfl, List.nodup_nil, ?_, ?_⟩ <;> simp [recvsOf]) hr
    exact ⟨hc.1 ▸ hinv.1, hinv.2.2.2⟩

/-- Witness for C9 (amended): the in-order schedule of a two-request
session receives `0, 1` and each reply follows its request. -/
theorem client_replies_follow_requests_witness :
    recvsOf [ClientEvent.recv 0, .respond 0, .recv 1, .respond 1] = List.range 2 ∧
    [ClientEvent.recv 1, ClientEvent.respond 1].Sublist
      [ClientEvent.recv 0, .respond 0, .recv 1, .respond 1] :=
  ⟨(client_replies_follow_requests 2 [.main, .handler 0, .main, .handler 1] _
      (by decide)).1,
   (client_replies_follow_requests 2 [.main, .handler 0, .main, .handler 1] _
      (by decide)).2 1 (by decide)⟩

end Syscalld
